import Mathlib

/-!
Shallow embedding of `rust-di` (`src/src/lib.rs`): a minimal inversion-of-control
container.  `ServiceProvider` holds a map of type-erased factories
(`RefCell<HashMap<TypeId, Box<dyn Factory>>>`) and a grow-only map of resolved
instances (`FrozenMap<TypeId, Box<Rc<dyn Any>>>`).  `resolve::<T>()` returns the
memoized instance if present, otherwise removes T's factory from the map, runs
it (the factory may reentrantly call `resolve` for its dependencies), stores the
result and returns it.

Modelling choices:
* `TypeId::of::<T>` / `type_name::<T>` become a `Ty` record of a `Nat` key and a
  `String` name.
* `Rc<dyn Any>` becomes `RcAny`: an allocation identity (`rcId`, fresh per
  `Rc::new`), the dynamic type id of the boxed value (`tyId`), and an observable
  payload (a `tag` string plus the `rcId`s of dependency handles the value
  captured).  Two handles are "the identical instance" iff they are equal, in
  particular iff they carry the same `rcId`.
* a factory closure `FnOnce(&ServiceProvider) -> Result<T, Box<dyn Error>>`
  becomes a deep-embedded program `FactoryProg` that can finish (`ret`), fail
  (`fail`), or call `resolve` for a dependency and continue with either the
  resolved handle or the `ResolveError` (Rust code may match on the `Result`;
  `?`-propagation is the special case that turns the error into a `fail`).
* `Rc::downcast` panicking through `.expect(...)` becomes the `Outcome.panicked`
  result carrying the expect message; running out of fuel (`Outcome.outOfFuel`)
  stands for divergence and is unreachable for sufficient fuel on the inputs
  used here.
* the `eprintln!` debug logging has no observable effect and is dropped.
-/

/-- Model of a Rust type used as a service contract: `id` plays the role of
`TypeId::of::<T>` and `name` the role of `type_name::<T>`. -/
structure Ty where
  id : Nat
  name : String
  deriving DecidableEq, Repr

mutual

/-- Source `ResolveErrorKind` (src/src/lib.rs lines 12-24): exactly three
variants; `ErrorWhileResolving` wraps the boxed cause returned by a factory. -/
inductive ResolveErrorKind : Type where
  | NotFound : ResolveErrorKind
  | CircularReferenceFound : ResolveErrorKind
  | ErrorWhileResolving (cause : BoxedError) : ResolveErrorKind

/-- Model of `Box<dyn Error>`: either an opaque domain error (coded by a `Nat`)
or a `ResolveError` that a factory propagated with `?` (a `ResolveError` is
itself a `dyn Error`).  The two fields of the `resolveErr` variant are the two
fields of the source `ResolveError` struct. -/
inductive BoxedError : Type where
  | domain (code : Nat) : BoxedError
  | resolveErr (type_name : String) (kind : ResolveErrorKind) : BoxedError

end

/-- Source `ResolveError` (src/src/lib.rs lines 26-31): the requesting type's
diagnostic name plus the error kind.  `ResolveError::for_type::<T>` is inlined
at each construction site as `{ type_name := t.name, kind := k }`. -/
structure ResolveError where
  type_name : String
  kind : ResolveErrorKind

/-- Upcast of a `ResolveError` into `Box<dyn Error>`, as done by `?` inside a
factory whose error type is `Box<dyn Error>`. -/
def BoxedError.ofResolveError (e : ResolveError) : BoxedError :=
  .resolveErr e.type_name e.kind

/-- Model of `Rc<dyn Any>`: `rcId` is the allocation identity created by
`Rc::new` (clones share it), `tyId` is the `TypeId` of the boxed value (what
`downcast` checks), `tag` and `deps` are the observable payload — a label and
the `rcId`s of the dependency handles the constructed value captured. -/
structure RcAny where
  rcId : Nat
  tyId : Nat
  tag : String
  deps : List Nat
  deriving DecidableEq, Repr

/-- Deep embedding of a factory closure body.  `ret tag deps` builds the service
value (capturing dependency handles `deps`); `fail e` returns `Err(e)`;
`resolveDep dep kok kerr` calls `service_provider.resolve::<Dep>()` and
continues with `kok` on `Ok(handle)` or `kerr` on `Err(resolve_error)`. -/
inductive FactoryProg : Type where
  | ret (tag : String) (deps : List Nat) : FactoryProg
  | fail (e : BoxedError) : FactoryProg
  | resolveDep (dep : Ty) (kok : RcAny → FactoryProg) (kerr : ResolveError → FactoryProg) : FactoryProg

/-- Model of a `Box<dyn Factory>` produced by the blanket
`unsafe impl<T, F> Factory for F` (src/src/lib.rs lines 51-71): `type_id` and
`type_name` both come from the closure's result type `T`, and `prog` is the
closure body.  The single `type_id` field used both as the registration key and
as the dynamic type of the constructed value is exactly the tie the blanket
implementation enforces. -/
structure Factory where
  type_id : Nat
  type_name : String
  prog : FactoryProg

/-- Association-list model of `HashMap` / `FrozenMap` lookup (`get`). -/
def lookupA {α : Type} : List (Nat × α) → Nat → Option α
  | [], _ => none
  | (k, v) :: rest, key => if k = key then some v else lookupA rest key

/-- Association-list model of `HashMap::remove`: drops the entry for `key`. -/
def removeA {α : Type} : List (Nat × α) → Nat → List (Nat × α)
  | [], _ => []
  | (k, v) :: rest, key =>
    if k = key then removeA rest key else (k, v) :: removeA rest key

/-- Association-list model of `HashMap::insert`: replaces the entry for `key`
or appends a fresh one (last registration wins, as in `collect()`). -/
def insertA {α : Type} : List (Nat × α) → Nat → α → List (Nat × α)
  | [], key, v => [(key, v)]
  | (k, w) :: rest, key, v =>
    if k = key then (key, v) :: rest else (k, w) :: insertA rest key v

/-- Model of `elsa::FrozenMap::insert`, whose implementation is
`map.entry(k).or_insert(v)`: an existing entry is kept, never overwritten. -/
def orInsertA {α : Type} (m : List (Nat × α)) (key : Nat) (v : α) : List (Nat × α) :=
  match lookupA m key with
  | some _ => m
  | none => (key, v) :: m

/-- Source `ServiceProvider` (src/src/lib.rs lines 79-82) together with the
allocation counter that gives `Rc::new` results their identity. -/
structure ServiceProvider where
  factories : List (Nat × Factory)
  instances : List (Nat × RcAny)
  nextRc : Nat

/-- Result of `ServiceProvider::resolve`: `Ok(Rc<T>)`, `Err(ResolveError)`, a
panic from a `downcast().expect(...)`, or fuel exhaustion (divergence). -/
inductive Outcome : Type where
  | ok (v : RcAny) : Outcome
  | err (e : ResolveError) : Outcome
  | panicked (msg : String) : Outcome
  | outOfFuel : Outcome

/-- Result of `Factory::resolve` (the blanket implementation): `Ok(Rc<dyn Any>)`
or `Err(Box<dyn Error>)`, with panics and fuel exhaustion of nested `resolve`
calls unwinding through the factory. -/
inductive FactoryResult : Type where
  | ok (v : RcAny) : FactoryResult
  | fail (e : BoxedError) : FactoryResult
  | panicked (msg : String) : FactoryResult
  | outOfFuel : FactoryResult

/-- Model of the blanket `Factory::resolve` (src/src/lib.rs lines 63-70)
running the closure body `p`: dependency requests call `res` (the provider's
`resolve` one fuel level down); on closure success `Rc::new` wraps the value as
a fresh allocation whose dynamic type is the factory's `type_id`. -/
def runFactory (res : Ty → ServiceProvider → Outcome × ServiceProvider)
    (type_id : Nat) : FactoryProg → ServiceProvider → FactoryResult × ServiceProvider
  | .ret tag deps, st =>
    (.ok { rcId := st.nextRc, tyId := type_id, tag := tag, deps := deps },
      { st with nextRc := st.nextRc + 1 })
  | .fail e, st => (.fail e, st)
  | .resolveDep dep kok kerr, st =>
    match res dep st with
    | (.ok v, st1) => runFactory res type_id (kok v) st1
    | (.err e, st1) => runFactory res type_id (kerr e) st1
    | (.panicked m, st1) => (.panicked m, st1)
    | (.outOfFuel, st1) => (.outOfFuel, st1)

/-- One unfolding of `ServiceProvider::resolve` (src/src/lib.rs lines 108-137),
with nested resolutions performed by `res`:
1. `instances.get(&type_id)` hit: downcast and return the stored handle
   (mismatch panics via `expect`);
2. miss: `factories.borrow_mut().remove(&type_id)`, `NotFound` if absent;
3. run the factory; a factory error is wrapped as `ErrorWhileResolving`;
4. on success insert the handle into `instances` (a `FrozenMap` or-insert),
   then downcast and return it (mismatch panics via `expect`). -/
def resolveCore (res : Ty → ServiceProvider → Outcome × ServiceProvider)
    (t : Ty) (st : ServiceProvider) : Outcome × ServiceProvider :=
  match lookupA st.instances t.id with
  | some any =>
    if any.tyId = t.id then (.ok any, st)
    else (.panicked "we resolved by TypeId so it should be a T", st)
  | none =>
    match lookupA st.factories t.id with
    | none => (.err { type_name := t.name, kind := .NotFound }, st)
    | some factory =>
      let st1 : ServiceProvider := { st with factories := removeA st.factories t.id }
      match runFactory res factory.type_id factory.prog st1 with
      | (.ok service, st2) =>
        let st3 : ServiceProvider :=
          { st2 with instances := orInsertA st2.instances t.id service }
        if service.tyId = t.id then (.ok service, st3)
        else (.panicked "We just resolved the factory for T", st3)
      | (.fail e, st2) =>
        (.err { type_name := t.name, kind := .ErrorWhileResolving e }, st2)
      | (.panicked m, st2) => (.panicked m, st2)
      | (.outOfFuel, st2) => (.outOfFuel, st2)

/-- Source `ServiceProvider::resolve`, with a fuel bound on the depth of
reentrant resolution (each nested level strictly shrinks the factory map, so
any fuel beyond that map's size is enough; exhaustion stands for divergence). -/
def resolve : Nat → Ty → ServiceProvider → Outcome × ServiceProvider
  | 0, _, st => (.outOfFuel, st)
  | fuel + 1, t, st => resolveCore (resolve fuel) t st

/-- Source `ServiceProvider::new` (src/src/lib.rs lines 93-106): collects the
factories into a map keyed by `f.type_id()`; no instances yet. -/
def ServiceProvider.new (fs : List Factory) : ServiceProvider :=
  { factories := fs.foldl (fun m f => insertA m f.type_id f) []
  , instances := []
  , nextRc := 0 }

/-- Modelled from the spec: `register_instance<T>(value)` of the registration
API (`ServiceCollection`), whose code is not under src/ — "stores a pre-built T
directly as already-`Resolved`" (§6), i.e. the built provider starts with a
`Resolved` entry for `T` holding a fresh `Rc` of the pre-built value, whose
dynamic type is `T` by construction; last registration wins (§4.1). -/
def register_instance (t : Ty) (tag : String) (deps : List Nat)
    (st : ServiceProvider) : ServiceProvider :=
  { st with
    instances := insertA st.instances t.id
      { rcId := st.nextRc, tyId := t.id, tag := tag, deps := deps }
    nextRc := st.nextRc + 1 }

/-- A sequence of further `resolve` calls on the provider (arbitrary fuels and
requested types), used to state "over the provider's whole lifetime". -/
def resolveSeq : List (Nat × Ty) → ServiceProvider → ServiceProvider
  | [], st => st
  | (fuel, u) :: rest, st => resolveSeq rest (resolve fuel u st).2

/-- Contract type `Engine` of the spec's nested-dependency scenario. -/
def engineTy : Ty := ⟨0, "Engine"⟩

/-- Contract type `Car` of the spec's nested-dependency scenario. -/
def carTy : Ty := ⟨1, "Car"⟩

/-- Factory `() -> Engine { name: "E1" }`. -/
def engineFactory : Factory := ⟨0, "Engine", .ret "E1" []⟩

/-- Factory `(p) -> Car { engine: p.resolve::<Engine>()? }`: requests `Engine`,
captures its handle, propagates a resolution failure with `?`. -/
def carFactory : Factory :=
  ⟨1, "Car", .resolveDep engineTy (fun eng => .ret "Car" [eng.rcId])
    (fun e => .fail (.ofResolveError e))⟩

/-- Provider of the nested-dependency scenario. -/
def demoProvider : ServiceProvider := ServiceProvider.new [engineFactory, carFactory]

/-- Contract type `A` of the cycle scenarios. -/
def tyA : Ty := ⟨0, "A"⟩

/-- Contract type `B` of the mutual-cycle scenario. -/
def tyB : Ty := ⟨1, "B"⟩

/-- Factory for `A` that resolves `A` inside itself (direct self-cycle),
propagating the inner failure with `?`. -/
def selfCycleFactory : Factory :=
  ⟨0, "A", .resolveDep tyA (fun v => .ret "A" [v.rcId])
    (fun e => .fail (.ofResolveError e))⟩

/-- Factory for `A` that resolves `B` (half of the mutual cycle). -/
def cycleFactoryA : Factory :=
  ⟨0, "A", .resolveDep tyB (fun v => .ret "A" [v.rcId])
    (fun e => .fail (.ofResolveError e))⟩

/-- Factory for `B` that resolves `A` (other half of the mutual cycle). -/
def cycleFactoryB : Factory :=
  ⟨1, "B", .resolveDep tyA (fun v => .ret "B" [v.rcId])
    (fun e => .fail (.ofResolveError e))⟩

/-- Factory for `A` that returns the domain error `7`. -/
def failingFactory : Factory := ⟨0, "A", .fail (.domain 7)⟩

/-- A provider whose erased storage holds, under key `0`, a value whose dynamic
type id is `1`: the broken-identity situation the defensive-downcast claims are
about.  Not reachable through `ServiceProvider.new` / `resolve`. -/
def mismatchProvider : ServiceProvider := ⟨[], [(0, ⟨5, 1, "X", []⟩)], 6⟩

/-- The instance map only grows and entries are never replaced: every handle
present in `s` is still present, unchanged, in `t`. -/
def InstLe (s t : ServiceProvider) : Prop :=
  ∀ k v, lookupA s.instances k = some v → lookupA t.instances k = some v

/-- Key `k` has neither an instance nor a factory: the state of a type whose
factory was consumed (it is being, or failed being, constructed), or of a type
that was never registered. -/
def DeadEntry (k : Nat) (s : ServiceProvider) : Prop :=
  lookupA s.instances k = none ∧ lookupA s.factories k = none

/-- Identity discipline of the container: every factory is stored under its own
`type_id` (as `ServiceProvider::new` does) and every erased instance is stored
under the `TypeId` of the value it holds. -/
def WF (s : ServiceProvider) : Prop :=
  (∀ p ∈ s.factories, (p : Nat × Factory).2.type_id = p.1) ∧
  (∀ p ∈ s.instances, (p : Nat × RcAny).2.tyId = p.1)

/-- Key `k` is pinned: it already holds the instance `w`, and its factory slot
is frozen at `c` (used to show a registered factory is never consumed once an
instance is present). -/
def PinnedAt (k : Nat) (c : Option Factory) (w : RcAny) (s : ServiceProvider) : Prop :=
  lookupA s.factories k = c ∧ lookupA s.instances k = some w

theorem lookupA_removeA_self {α : Type} (m : List (Nat × α)) (k : Nat) :
    lookupA (removeA m k) k = none := by
  induction m with
  | nil => rfl
  | cons p rest ih =>
    obtain ⟨a, b⟩ := p
    by_cases h : a = k
    · simpa [removeA, h] using ih
    · simpa [removeA, lookupA, h] using ih

theorem lookupA_removeA_ne {α : Type} (m : List (Nat × α)) (k j : Nat) (h : j ≠ k) :
    lookupA (removeA m k) j = lookupA m j := by
  induction m with
  | nil => rfl
  | cons p rest ih =>
    obtain ⟨a, b⟩ := p
    by_cases hak : a = k
    · have haj : a ≠ j := by
        intro hcon
        exact h (hcon ▸ hak)
      simp [removeA, lookupA, hak, haj, Ne.symm h, ih]
    · by_cases haj : a = j
      · simp [removeA, lookupA, hak, haj, h]
      · simp [removeA, lookupA, hak, haj, ih]

theorem lookupA_insertA_self {α : Type} (m : List (Nat × α)) (k : Nat) (v : α) :
    lookupA (insertA m k v) k = some v := by
  induction m with
  | nil => simp [insertA, lookupA]
  | cons p rest ih =>
    obtain ⟨a, b⟩ := p
    by_cases h : a = k
    · simp [insertA, lookupA, h]
    · simp [insertA, lookupA, h, ih]

theorem lookupA_orInsertA_of_some {α : Type} (m : List (Nat × α)) (k j : Nat)
    (v w : α) (h : lookupA m j = some w) :
    lookupA (orInsertA m k v) j = some w := by
  unfold orInsertA
  cases hk : lookupA m k with
  | some u => exact h
  | none =>
    have hjk : k ≠ j := by
      intro hcon
      rw [hcon, h] at hk
      cases hk
    simp [lookupA, hjk, h]

theorem lookupA_orInsertA_self_none {α : Type} (m : List (Nat × α)) (k : Nat)
    (v : α) (h : lookupA m k = none) :
    lookupA (orInsertA m k v) k = some v := by
  simp [orInsertA, h, lookupA]

theorem lookupA_orInsertA_ne {α : Type} (m : List (Nat × α)) (k : Nat) (v : α)
    (j : Nat) (h : j ≠ k) :
    lookupA (orInsertA m k v) j = lookupA m j := by
  unfold orInsertA
  cases hk : lookupA m k with
  | some u => rfl
  | none => simp [lookupA, Ne.symm h]

theorem mem_removeA {α : Type} (m : List (Nat × α)) (k : Nat) (p : Nat × α)
    (h : p ∈ removeA m k) : p ∈ m := by
  induction m with
  | nil => simp [removeA] at h
  | cons q rest ih =>
    obtain ⟨a, b⟩ := q
    by_cases hak : a = k
    · simp only [removeA, if_pos hak] at h
      exact List.mem_cons_of_mem _ (ih h)
    · simp only [removeA, if_neg hak, List.mem_cons] at h
      rcases h with h | h
      · exact h ▸ List.mem_cons_self _ _
      · exact List.mem_cons_of_mem _ (ih h)

theorem mem_orInsertA {α : Type} (m : List (Nat × α)) (k : Nat) (v : α)
    (p : Nat × α) (h : p ∈ orInsertA m k v) : p = (k, v) ∨ p ∈ m := by
  unfold orInsertA at h
  cases hk : lookupA m k with
  | some u =>
    rw [hk] at h
    exact Or.inr h
  | none =>
    rw [hk] at h
    simpa [List.mem_cons] using h

theorem mem_insertA {α : Type} (m : List (Nat × α)) (k : Nat) (v : α)
    (p : Nat × α) (h : p ∈ insertA m k v) : p = (k, v) ∨ p ∈ m := by
  induction m with
  | nil => simpa [insertA] using h
  | cons q rest ih =>
    obtain ⟨a, b⟩ := q
    by_cases hak : a = k
    · simp only [insertA, if_pos hak, List.mem_cons] at h
      rcases h with h | h
      · exact Or.inl h
      · exact Or.inr (List.mem_cons_of_mem _ h)
    · simp only [insertA, if_neg hak, List.mem_cons] at h
      rcases h with h | h
      · exact Or.inr (h ▸ List.mem_cons_self _ _)
      · rcases ih h with h1 | h1
        · exact Or.inl h1
        · exact Or.inr (List.mem_cons_of_mem _ h1)

theorem instLe_refl (s : ServiceProvider) : InstLe s s :=
  fun _ _ h => h

theorem instLe_trans (a b c : ServiceProvider) (h1 : InstLe a b) (h2 : InstLe b c) :
    InstLe a c :=
  fun k v h => h2 k v (h1 k v h)

theorem lookupA_mem {α : Type} (m : List (Nat × α)) (k : Nat) (v : α)
    (h : lookupA m k = some v) : (k, v) ∈ m := by
  induction m with
  | nil => cases h
  | cons q rest ih =>
    obtain ⟨a, b⟩ := q
    by_cases hak : a = k
    · simp only [lookupA, if_pos hak] at h
      cases h
      exact hak ▸ List.mem_cons_self _ _
    · simp only [lookupA, if_neg hak] at h
      exact List.mem_cons_of_mem _ (ih h)

theorem runFactory_pres (P : ServiceProvider → Prop)
    (res : Ty → ServiceProvider → Outcome × ServiceProvider) (tid : Nat)
    (hres : ∀ u s, P s → P (res u s).2)
    (halloc : ∀ s, P s → P { s with nextRc := s.nextRc + 1 })
    (p : FactoryProg) :
    ∀ s, P s → P (runFactory res tid p s).2 := by
  induction p with
  | ret tag deps =>
    intro s hs
    exact halloc s hs
  | fail e =>
    intro s hs
    exact hs
  | resolveDep dep kok kerr ihok iherr =>
    intro s hs
    have h1 : P (res dep s).2 := hres dep s hs
    simp only [runFactory]
    cases hr : res dep s with
    | mk out s1 =>
      rw [hr] at h1
      cases out with
      | ok v => exact ihok v s1 h1
      | err e => exact iherr e s1 h1
      | panicked m => exact h1
      | outOfFuel => exact h1

theorem runFactory_ok_tyId
    (res : Ty → ServiceProvider → Outcome × ServiceProvider) (tid : Nat)
    (p : FactoryProg) :
    ∀ s v s1, runFactory res tid p s = (.ok v, s1) → v.tyId = tid := by
  induction p with
  | ret tag deps =>
    intro s v s1 h
    simp only [runFactory, Prod.mk.injEq, FactoryResult.ok.injEq] at h
    rw [← h.1]
  | fail e =>
    intro s v s1 h
    simp only [runFactory, Prod.mk.injEq] at h
    exact absurd h.1 (by intro hcon; cases hcon)
  | resolveDep dep kok kerr ihok iherr =>
    intro s v s1 h
    simp only [runFactory] at h
    cases hr : res dep s with
    | mk out s2 =>
      rw [hr] at h
      cases out with
      | ok w => exact ihok w s2 v s1 h
      | err e => exact iherr e s2 v s1 h
      | panicked m => simp at h
      | outOfFuel => simp at h

theorem runFactory_wf
    (res : Ty → ServiceProvider → Outcome × ServiceProvider) (tid : Nat)
    (hres : ∀ u s, WF s → WF (res u s).2 ∧ ∀ m, (res u s).1 ≠ .panicked m)
    (p : FactoryProg) :
    ∀ s, WF s → WF (runFactory res tid p s).2 ∧
      ∀ m, (runFactory res tid p s).1 ≠ .panicked m := by
  induction p with
  | ret tag deps =>
    intro s hs
    exact ⟨hs, by intro m h; cases h⟩
  | fail e =>
    intro s hs
    exact ⟨hs, by intro m h; cases h⟩
  | resolveDep dep kok kerr ihok iherr =>
    intro s hs
    have h1 := hres dep s hs
    simp only [runFactory]
    cases hr : res dep s with
    | mk out s1 =>
      rw [hr] at h1
      cases out with
      | ok v => exact ihok v s1 h1.1
      | err e => exact iherr e s1 h1.1
      | panicked m => exact absurd rfl (h1.2 m)
      | outOfFuel => exact ⟨h1.1, by intro m h; cases h⟩

theorem resolveCore_cases
    (res : Ty → ServiceProvider → Outcome × ServiceProvider)
    (t : Ty) (s : ServiceProvider) :
    (∃ any, lookupA s.instances t.id = some any ∧ any.tyId = t.id ∧
      resolveCore res t s = (.ok any, s)) ∨
    (∃ any, lookupA s.instances t.id = some any ∧ any.tyId ≠ t.id ∧
      resolveCore res t s = (.panicked "we resolved by TypeId so it should be a T", s)) ∨
    (lookupA s.instances t.id = none ∧ lookupA s.factories t.id = none ∧
      resolveCore res t s = (.err { type_name := t.name, kind := .NotFound }, s)) ∨
    (∃ f service s2, lookupA s.instances t.id = none ∧
      lookupA s.factories t.id = some f ∧
      runFactory res f.type_id f.prog
        { s with factories := removeA s.factories t.id } = (.ok service, s2) ∧
      service.tyId = t.id ∧
      resolveCore res t s =
        (.ok service, { s2 with instances := orInsertA s2.instances t.id service })) ∨
    (∃ f service s2, lookupA s.instances t.id = none ∧
      lookupA s.factories t.id = some f ∧
      runFactory res f.type_id f.prog
        { s with factories := removeA s.factories t.id } = (.ok service, s2) ∧
      service.tyId ≠ t.id ∧
      resolveCore res t s = (.panicked "We just resolved the factory for T",
        { s2 with instances := orInsertA s2.instances t.id service })) ∨
    (∃ f e s2, lookupA s.instances t.id = none ∧
      lookupA s.factories t.id = some f ∧
      runFactory res f.type_id f.prog
        { s with factories := removeA s.factories t.id } = (.fail e, s2) ∧
      resolveCore res t s =
        (.err { type_name := t.name, kind := .ErrorWhileResolving e }, s2)) ∨
    (∃ f m s2, lookupA s.instances t.id = none ∧
      lookupA s.factories t.id = some f ∧
      runFactory res f.type_id f.prog
        { s with factories := removeA s.factories t.id } = (.panicked m, s2) ∧
      resolveCore res t s = (.panicked m, s2)) ∨
    (∃ f s2, lookupA s.instances t.id = none ∧
      lookupA s.factories t.id = some f ∧
      runFactory res f.type_id f.prog
        { s with factories := removeA s.factories t.id } = (.outOfFuel, s2) ∧
      resolveCore res t s = (.outOfFuel, s2)) := by
  cases hi : lookupA s.instances t.id with
  | some any =>
    by_cases hty : any.tyId = t.id
    · exact Or.inl ⟨any, rfl, hty, by simp only [resolveCore, hi, if_pos hty]⟩
    · exact Or.inr (Or.inl ⟨any, rfl, hty, by simp only [resolveCore, hi, if_neg hty]⟩)
  | none =>
    cases hf : lookupA s.factories t.id with
    | none =>
      exact Or.inr (Or.inr (Or.inl ⟨rfl, rfl, by simp only [resolveCore, hi, hf]⟩))
    | some f =>
      cases hr : runFactory res f.type_id f.prog
          { s with factories := removeA s.factories t.id } with
      | mk out s2 =>
        cases out with
        | ok service =>
          by_cases hty : service.tyId = t.id
          · exact Or.inr (Or.inr (Or.inr (Or.inl ⟨f, service, s2, rfl, rfl, hr,
              hty, by simp only [resolveCore, hi, hf, hr, if_pos hty]⟩)))
          · exact Or.inr (Or.inr (Or.inr (Or.inr (Or.inl ⟨f, service, s2, rfl, rfl,
              hr, hty, by simp only [resolveCore, hi, hf, hr, if_neg hty]⟩))))
        | fail e =>
          exact Or.inr (Or.inr (Or.inr (Or.inr (Or.inr (Or.inl ⟨f, e, s2, rfl, rfl,
            hr, by simp only [resolveCore, hi, hf, hr]⟩)))))
        | panicked m =>
          exact Or.inr (Or.inr (Or.inr (Or.inr (Or.inr (Or.inr (Or.inl ⟨f, m, s2,
            rfl, rfl, hr, by simp only [resolveCore, hi, hf, hr]⟩))))))
        | outOfFuel =>
          exact Or.inr (Or.inr (Or.inr (Or.inr (Or.inr (Or.inr (Or.inr ⟨f, s2,
            rfl, rfl, hr, by simp only [resolveCore, hi, hf, hr]⟩))))))

theorem runFactory_pres_eq (P : ServiceProvider → Prop)
    (res : Ty → ServiceProvider → Outcome × ServiceProvider) (tid : Nat)
    (hres : ∀ u s, P s → P (res u s).2)
    (halloc : ∀ s, P s → P { s with nextRc := s.nextRc + 1 })
    (p : FactoryProg) (s : ServiceProvider) (out : FactoryResult)
    (s2 : ServiceProvider) (hr : runFactory res tid p s = (out, s2))
    (hs : P s) : P s2 := by
  have h := runFactory_pres P res tid hres halloc p s hs
  rw [hr] at h
  exact h

theorem resolveCore_instLe
    (res : Ty → ServiceProvider → Outcome × ServiceProvider)
    (hres : ∀ u s, InstLe s (res u s).2) (t : Ty) (s : ServiceProvider) :
    InstLe s (resolveCore res t s).2 := by
  rcases resolveCore_cases res t s with
    ⟨any, hi, hty, hc⟩ | ⟨any, hi, hty, hc⟩ | ⟨hi, hf, hc⟩ |
    ⟨f, sv, s2, hi, hf, hr, hty, hc⟩ | ⟨f, sv, s2, hi, hf, hr, hty, hc⟩ |
    ⟨f, e, s2, hi, hf, hr, hc⟩ | ⟨f, m, s2, hi, hf, hr, hc⟩ |
    ⟨f, s2, hi, hf, hr, hc⟩ <;> rw [hc]
  · exact instLe_refl s
  · exact instLe_refl s
  · exact instLe_refl s
  all_goals
    have h1 : InstLe s s2 := runFactory_pres_eq (InstLe s) res f.type_id
      (fun u s3 h3 => instLe_trans s s3 (res u s3).2 h3 (hres u s3))
      (fun s3 h3 => h3) f.prog
      { s with factories := removeA s.factories t.id } _ s2 hr (instLe_refl s)
  · exact fun k v h => lookupA_orInsertA_of_some s2.instances t.id k sv v (h1 k v h)
  · exact fun k v h => lookupA_orInsertA_of_some s2.instances t.id k sv v (h1 k v h)
  · exact h1
  · exact h1
  · exact h1

theorem resolveCore_dead (k : Nat)
    (res : Ty → ServiceProvider → Outcome × ServiceProvider)
    (hres : ∀ u s, DeadEntry k s → DeadEntry k (res u s).2)
    (t : Ty) (s : ServiceProvider) (hs : DeadEntry k s) :
    DeadEntry k (resolveCore res t s).2 := by
  rcases resolveCore_cases res t s with
    ⟨any, hi, hty, hc⟩ | ⟨any, hi, hty, hc⟩ | ⟨hi, hf, hc⟩ |
    ⟨f, sv, s2, hi, hf, hr, hty, hc⟩ | ⟨f, sv, s2, hi, hf, hr, hty, hc⟩ |
    ⟨f, e, s2, hi, hf, hr, hc⟩ | ⟨f, m, s2, hi, hf, hr, hc⟩ |
    ⟨f, s2, hi, hf, hr, hc⟩ <;> rw [hc]
  · exact hs
  · exact hs
  · exact hs
  all_goals
    have hne : t.id ≠ k := by
      intro hcon
      rw [hcon, hs.2] at hf
      cases hf
  all_goals
    have hs2 : DeadEntry k s2 := runFactory_pres_eq (DeadEntry k) res f.type_id
      hres (fun s3 h3 => h3) f.prog
      { s with factories := removeA s.factories t.id } _ s2 hr
      ⟨hs.1, by
        show lookupA (removeA s.factories t.id) k = none
        rw [lookupA_removeA_ne s.factories t.id k (Ne.symm hne)]
        exact hs.2⟩
  · exact ⟨by
      show lookupA (orInsertA s2.instances t.id sv) k = none
      rw [lookupA_orInsertA_ne s2.instances t.id sv k (Ne.symm hne)]
      exact hs2.1, hs2.2⟩
  · exact ⟨by
      show lookupA (orInsertA s2.instances t.id sv) k = none
      rw [lookupA_orInsertA_ne s2.instances t.id sv k (Ne.symm hne)]
      exact hs2.1, hs2.2⟩
  · exact hs2
  · exact hs2
  · exact hs2

theorem resolveCore_pinned (k : Nat) (c : Option Factory) (w : RcAny)
    (res : Ty → ServiceProvider → Outcome × ServiceProvider)
    (hres : ∀ u s, PinnedAt k c w s → PinnedAt k c w (res u s).2)
    (t : Ty) (s : ServiceProvider) (hs : PinnedAt k c w s) :
    PinnedAt k c w (resolveCore res t s).2 := by
  rcases resolveCore_cases res t s with
    ⟨any, hi, hty, hc⟩ | ⟨any, hi, hty, hc⟩ | ⟨hi, hf, hc⟩ |
    ⟨f, sv, s2, hi, hf, hr, hty, hc⟩ | ⟨f, sv, s2, hi, hf, hr, hty, hc⟩ |
    ⟨f, e, s2, hi, hf, hr, hc⟩ | ⟨f, m, s2, hi, hf, hr, hc⟩ |
    ⟨f, s2, hi, hf, hr, hc⟩ <;> rw [hc]
  · exact hs
  · exact hs
  · exact hs
  all_goals
    have hne : t.id ≠ k := by
      intro hcon
      rw [hcon, hs.2] at hi
      cases hi
  all_goals
    have hs2 : PinnedAt k c w s2 := runFactory_pres_eq (PinnedAt k c w) res
      f.type_id hres (fun s3 h3 => h3) f.prog
      { s with factories := removeA s.factories t.id } _ s2 hr
      ⟨by
        show lookupA (removeA s.factories t.id) k = c
        rw [lookupA_removeA_ne s.factories t.id k (Ne.symm hne)]
        exact hs.1, hs.2⟩
  · exact ⟨hs2.1, by
      show lookupA (orInsertA s2.instances t.id sv) k = some w
      rw [lookupA_orInsertA_ne s2.instances t.id sv k (Ne.symm hne)]
      exact hs2.2⟩
  · exact ⟨hs2.1, by
      show lookupA (orInsertA s2.instances t.id sv) k = some w
      rw [lookupA_orInsertA_ne s2.instances t.id sv k (Ne.symm hne)]
      exact hs2.2⟩
  · exact hs2
  · exact hs2
  · exact hs2

theorem resolveCore_wf
    (res : Ty → ServiceProvider → Outcome × ServiceProvider)
    (hres : ∀ u s, WF s → WF (res u s).2 ∧ ∀ m, (res u s).1 ≠ .panicked m)
    (t : Ty) (s : ServiceProvider) (hs : WF s) :
    WF (resolveCore res t s).2 ∧ ∀ m, (resolveCore res t s).1 ≠ .panicked m := by
  rcases resolveCore_cases res t s with
    ⟨any, hi, hty, hc⟩ | ⟨any, hi, hty, hc⟩ | ⟨hi, hf, hc⟩ |
    ⟨f, sv, s2, hi, hf, hr, hty, hc⟩ | ⟨f, sv, s2, hi, hf, hr, hty, hc⟩ |
    ⟨f, e, s2, hi, hf, hr, hc⟩ | ⟨f, m, s2, hi, hf, hr, hc⟩ |
    ⟨f, s2, hi, hf, hr, hc⟩
  · rw [hc]
    exact ⟨hs, by intro m h; cases h⟩
  · exact absurd (hs.2 (t.id, any) (lookupA_mem s.instances t.id any hi)) hty
  · rw [hc]
    exact ⟨hs, by intro m h; cases h⟩
  all_goals
    have hs1 : WF { s with factories := removeA s.factories t.id } :=
      ⟨fun p hp => hs.1 p (mem_removeA s.factories t.id p hp), hs.2⟩
  all_goals
    have hrun := runFactory_wf res f.type_id hres f.prog
      { s with factories := removeA s.factories t.id } hs1
  all_goals rw [hr] at hrun
  · rw [hc]
    refine ⟨⟨hrun.1.1, ?_⟩, by intro m h; cases h⟩
    intro p hp
    rcases mem_orInsertA s2.instances t.id sv p hp with h | h
    · rw [h]
      exact hty
    · exact hrun.1.2 p h
  · exact absurd ((runFactory_ok_tyId res f.type_id f.prog
      { s with factories := removeA s.factories t.id } sv s2 hr).trans
      (hs.1 (t.id, f) (lookupA_mem s.factories t.id f hf))) hty
  · rw [hc]
    exact ⟨hrun.1, by intro m h; cases h⟩
  · exact absurd rfl (hrun.2 m)
  · rw [hc]
    exact ⟨hrun.1, by intro m h; cases h⟩

theorem resolve_instLe (fuel : Nat) :
    ∀ (t : Ty) (s : ServiceProvider), InstLe s (resolve fuel t s).2 := by
  induction fuel with
  | zero => intro t s; exact instLe_refl s
  | succ n ih => intro t s; exact resolveCore_instLe (resolve n) ih t s

theorem resolve_dead (k : Nat) (fuel : Nat) :
    ∀ (t : Ty) (s : ServiceProvider), DeadEntry k s →
      DeadEntry k (resolve fuel t s).2 := by
  induction fuel with
  | zero => intro t s hs; exact hs
  | succ n ih => intro t s hs; exact resolveCore_dead k (resolve n) ih t s hs

theorem resolve_pinned (k : Nat) (c : Option Factory) (w : RcAny) (fuel : Nat) :
    ∀ (t : Ty) (s : ServiceProvider), PinnedAt k c w s →
      PinnedAt k c w (resolve fuel t s).2 := by
  induction fuel with
  | zero => intro t s hs; exact hs
  | succ n ih => intro t s hs; exact resolveCore_pinned k c w (resolve n) ih t s hs

theorem resolve_wf (fuel : Nat) :
    ∀ (t : Ty) (s : ServiceProvider), WF s →
      WF (resolve fuel t s).2 ∧ ∀ m, (resolve fuel t s).1 ≠ .panicked m := by
  induction fuel with
  | zero => intro t s hs; exact ⟨hs, by intro m h; cases h⟩
  | succ n ih => intro t s hs; exact resolveCore_wf (resolve n) ih t s hs

theorem resolveSeq_instLe (calls : List (Nat × Ty)) :
    ∀ s : ServiceProvider, InstLe s (resolveSeq calls s) := by
  induction calls with
  | nil => intro s; exact instLe_refl s
  | cons q rest ih =>
    intro s
    obtain ⟨fuel, u⟩ := q
    exact instLe_trans s (resolve fuel u s).2 (resolveSeq rest (resolve fuel u s).2)
      (resolve_instLe fuel u s) (ih (resolve fuel u s).2)

theorem resolveSeq_dead (k : Nat) (calls : List (Nat × Ty)) :
    ∀ s : ServiceProvider, DeadEntry k s → DeadEntry k (resolveSeq calls s) := by
  induction calls with
  | nil => intro s hs; exact hs
  | cons q rest ih =>
    intro s hs
    obtain ⟨fuel, u⟩ := q
    exact ih (resolve fuel u s).2 (resolve_dead k fuel u s hs)

theorem resolveSeq_pinned (k : Nat) (c : Option Factory) (w : RcAny)
    (calls : List (Nat × Ty)) :
    ∀ s : ServiceProvider, PinnedAt k c w s → PinnedAt k c w (resolveSeq calls s) := by
  induction calls with
  | nil => intro s hs; exact hs
  | cons q rest ih =>
    intro s hs
    obtain ⟨fuel, u⟩ := q
    exact ih (resolve fuel u s).2 (resolve_pinned k c w fuel u s hs)

theorem resolveSeq_wf (calls : List (Nat × Ty)) :
    ∀ s : ServiceProvider, WF s → WF (resolveSeq calls s) := by
  induction calls with
  | nil => intro s hs; exact hs
  | cons q rest ih =>
    intro s hs
    obtain ⟨fuel, u⟩ := q
    exact ih (resolve fuel u s).2 (resolve_wf fuel u s hs).1

theorem foldl_insertA_key (fs : List Factory) :
    ∀ acc : List (Nat × Factory),
      (∀ p ∈ acc, (p : Nat × Factory).2.type_id = p.1) →
      ∀ p ∈ fs.foldl (fun m f => insertA m f.type_id f) acc,
        (p : Nat × Factory).2.type_id = p.1 := by
  induction fs with
  | nil => intro acc hacc p hp; exact hacc p hp
  | cons f rest ih =>
    intro acc hacc p hp
    refine ih (insertA acc f.type_id f) ?_ p hp
    intro q hq
    rcases mem_insertA acc f.type_id f q hq with h | h
    · rw [h]
    · exact hacc q h

theorem new_wf (fs : List Factory) : WF (ServiceProvider.new fs) := by
  constructor
  · exact foldl_insertA_key fs [] (by intro p hp; cases hp)
  · intro p hp
    cases hp

theorem resolve_ok_inv (fuel : Nat) (t : Ty) (s : ServiceProvider) (v : RcAny)
    (s1 : ServiceProvider) (h : resolve fuel t s = (.ok v, s1)) :
    lookupA s1.instances t.id = some v ∧ v.tyId = t.id := by
  cases fuel with
  | zero =>
    simp only [resolve, Prod.mk.injEq] at h
    exact absurd h.1 (by intro hcon; cases hcon)
  | succ n =>
    have hres : resolveCore (resolve n) t s = (.ok v, s1) := h
    rcases resolveCore_cases (resolve n) t s with
      ⟨any, hi, hty, hc⟩ | ⟨any, hi, hty, hc⟩ | ⟨hi, hf, hc⟩ |
      ⟨f, sv, s2, hi, hf, hr, hty, hc⟩ | ⟨f, sv, s2, hi, hf, hr, hty, hc⟩ |
      ⟨f, e, s2, hi, hf, hr, hc⟩ | ⟨f, m, s2, hi, hf, hr, hc⟩ |
      ⟨f, s2, hi, hf, hr, hc⟩ <;> rw [hc] at hres <;>
      simp only [Prod.mk.injEq] at hres
    · obtain ⟨h1, h2⟩ := hres
      cases h1
      rw [← h2]
      exact ⟨hi, hty⟩
    · exact absurd hres.1 (by intro hcon; cases hcon)
    · exact absurd hres.1 (by intro hcon; cases hcon)
    · obtain ⟨h1, h2⟩ := hres
      cases h1
      rw [← h2]
      have hdead : DeadEntry t.id s2 := runFactory_pres_eq (DeadEntry t.id)
        (resolve n) f.type_id (fun u s3 h3 => resolve_dead t.id n u s3 h3)
        (fun s3 h3 => h3) f.prog
        { s with factories := removeA s.factories t.id } _ s2 hr
        ⟨hi, lookupA_removeA_self s.factories t.id⟩
      exact ⟨lookupA_orInsertA_self_none s2.instances t.id v hdead.1, hty⟩
    · exact absurd hres.1 (by intro hcon; cases hcon)
    · exact absurd hres.1 (by intro hcon; cases hcon)
    · exact absurd hres.1 (by intro hcon; cases hcon)
    · exact absurd hres.1 (by intro hcon; cases hcon)

theorem resolve_err_inv (fuel : Nat) (t : Ty) (s : ServiceProvider)
    (e : ResolveError) (s1 : ServiceProvider)
    (h : resolve fuel t s = (.err e, s1)) :
    DeadEntry t.id s1 ∧ InstLe s s1 := by
  cases fuel with
  | zero =>
    simp only [resolve, Prod.mk.injEq] at h
    exact absurd h.1 (by intro hcon; cases hcon)
  | succ n =>
    have hres : resolveCore (resolve n) t s = (.err e, s1) := h
    rcases resolveCore_cases (resolve n) t s with
      ⟨any, hi, hty, hc⟩ | ⟨any, hi, hty, hc⟩ | ⟨hi, hf, hc⟩ |
      ⟨f, sv, s2, hi, hf, hr, hty, hc⟩ | ⟨f, sv, s2, hi, hf, hr, hty, hc⟩ |
      ⟨f, e2, s2, hi, hf, hr, hc⟩ | ⟨f, m, s2, hi, hf, hr, hc⟩ |
      ⟨f, s2, hi, hf, hr, hc⟩ <;> rw [hc] at hres <;>
      simp only [Prod.mk.injEq] at hres
    · exact absurd hres.1 (by intro hcon; cases hcon)
    · exact absurd hres.1 (by intro hcon; cases hcon)
    · obtain ⟨h1, h2⟩ := hres
      rw [← h2]
      exact ⟨⟨hi, hf⟩, instLe_refl s⟩
    · exact absurd hres.1 (by intro hcon; cases hcon)
    · exact absurd hres.1 (by intro hcon; cases hcon)
    · obtain ⟨h1, h2⟩ := hres
      rw [← h2]
      constructor
      · exact runFactory_pres_eq (DeadEntry t.id) (resolve n) f.type_id
          (fun u s3 h3 => resolve_dead t.id n u s3 h3) (fun s3 h3 => h3) f.prog
          { s with factories := removeA s.factories t.id } _ s2 hr
          ⟨hi, lookupA_removeA_self s.factories t.id⟩
      · exact runFactory_pres_eq (InstLe s) (resolve n) f.type_id
          (fun u s3 h3 => instLe_trans s s3 (resolve n u s3).2 h3
            (resolve_instLe n u s3))
          (fun s3 h3 => h3) f.prog
          { s with factories := removeA s.factories t.id } _ s2 hr
          (instLe_refl s)
    · exact absurd hres.1 (by intro hcon; cases hcon)
    · exact absurd hres.1 (by intro hcon; cases hcon)

theorem resolve_notFound_of_dead (g : Nat) (t : Ty) (s : ServiceProvider)
    (hs : DeadEntry t.id s) :
    resolve (g + 1) t s = (.err { type_name := t.name, kind := .NotFound }, s) := by
  simp only [resolve, resolveCore, hs.1, hs.2]

/-- Proposition that a `resolve` outcome is not a panic (the `expect` calls on
the two downcasts never fire). -/
def NotPanic : Outcome → Prop
  | .panicked _ => False
  | _ => True

/-- C1: singleton memoization — once `resolve` has returned the handle `v` for
type `t`, any later `resolve` of `t` on the same provider (after any further
sequence of resolutions) returns the identical handle `v` and leaves the state
unchanged, and the factory slot for `t` is never touched again, so `t`'s
factory is invoked at most once over the provider's lifetime. -/
theorem resolve_singleton_memoization (fuel g : Nat) (t : Ty)
    (st st1 : ServiceProvider) (v : RcAny) (calls : List (Nat × Ty))
    (h : resolve fuel t st = (.ok v, st1)) :
    resolve (g + 1) t (resolveSeq calls st1) = (.ok v, resolveSeq calls st1)
    ∧ lookupA (resolveSeq calls st1).factories t.id = lookupA st1.factories t.id := by
  obtain ⟨hl, hty⟩ := resolve_ok_inv fuel t st v st1 h
  have hp := resolveSeq_pinned t.id (lookupA st1.factories t.id) v calls st1 ⟨rfl, hl⟩
  constructor
  · simp only [resolve, resolveCore, hp.2, if_pos hty]
  · exact hp.1

/-- C1 witness: on the demo provider, resolving `Car` once yields the handle
with allocation id 1; resolving `Car` again returns the identical handle and
does not change the provider. -/
theorem resolve_singleton_memoization_witness :
    resolve 2 carTy demoProvider
      = (.ok ⟨1, 1, "Car", [0]⟩,
          ⟨[], [(1, ⟨1, 1, "Car", [0]⟩), (0, ⟨0, 0, "E1", []⟩)], 2⟩)
    ∧ resolve 1 carTy ⟨[], [(1, ⟨1, 1, "Car", [0]⟩), (0, ⟨0, 0, "E1", []⟩)], 2⟩
      = (.ok ⟨1, 1, "Car", [0]⟩,
          ⟨[], [(1, ⟨1, 1, "Car", [0]⟩), (0, ⟨0, 0, "E1", []⟩)], 2⟩) :=
  ⟨rfl,
    (resolve_singleton_memoization 2 0 carTy demoProvider
      ⟨[], [(1, ⟨1, 1, "Car", [0]⟩), (0, ⟨0, 0, "E1", []⟩)], 2⟩
      ⟨1, 1, "Car", [0]⟩ [] rfl).1⟩

/-- C2: evaluation of the code at the cycle scenarios.  A factory for `A` that
resolves `A` inside itself makes the inner `resolve` fail with `NotFound` (the
factory was already removed from the map before being invoked), so the outer
call returns `ErrorWhileResolving` wrapping a `NotFound` error — not
`CircularReferenceFound`, which the code never constructs.  The mutual cycle
`A → B → A` likewise ends in a `NotFound` for the innermost request, wrapped
twice.  Construction terminates (no infinite recursion). -/
theorem cycle_resolution_eval :
    resolve 2 tyA (ServiceProvider.new [selfCycleFactory])
      = (.err ⟨"A", .ErrorWhileResolving (.resolveErr "A" .NotFound)⟩, ⟨[], [], 0⟩)
    ∧ resolve 3 tyA (ServiceProvider.new [cycleFactoryA, cycleFactoryB])
      = (.err ⟨"A", .ErrorWhileResolving (.resolveErr "B"
          (.ErrorWhileResolving (.resolveErr "A" .NotFound)))⟩, ⟨[], [], 0⟩) :=
  ⟨rfl, rfl⟩

/-- C3: resolving a type with neither a stored instance nor a registered
factory fails with `NotFound` and returns the provider state literally
unchanged — no entry of any kind is created. -/
theorem resolve_unregistered_not_found (fuel : Nat) (t : Ty)
    (st : ServiceProvider)
    (h1 : lookupA st.instances t.id = none)
    (h2 : lookupA st.factories t.id = none) :
    resolve (fuel + 1) t st = (.err { type_name := t.name, kind := .NotFound }, st) := by
  simp only [resolve, resolveCore, h1, h2]

/-- C3 witness: the empty provider rejects type `A` with `NotFound` and is
unchanged. -/
theorem resolve_unregistered_not_found_witness :
    lookupA (ServiceProvider.new []).instances 0 = none
    ∧ lookupA (ServiceProvider.new []).factories 0 = none
    ∧ resolve 1 tyA (ServiceProvider.new [])
      = (.err ⟨"A", .NotFound⟩, ServiceProvider.new []) :=
  ⟨rfl, rfl, resolve_unregistered_not_found 0 tyA (ServiceProvider.new []) rfl rfl⟩

/-- C4: if the factory for `t` fails with the boxed cause `e`, `resolve` fails
with kind `ErrorWhileResolving` wrapping exactly `e`, and the error carries
`t`'s diagnostic type name. -/
theorem factory_error_wrapped (fuel : Nat) (t : Ty) (st st2 : ServiceProvider)
    (f : Factory) (e : BoxedError)
    (h1 : lookupA st.instances t.id = none)
    (h2 : lookupA st.factories t.id = some f)
    (h3 : runFactory (resolve fuel) f.type_id f.prog
        { st with factories := removeA st.factories t.id } = (.fail e, st2)) :
    resolve (fuel + 1) t st
      = (.err { type_name := t.name, kind := .ErrorWhileResolving e }, st2) := by
  simp only [resolve, resolveCore, h1, h2, h3]

/-- C4 witness: a factory for `A` failing with domain error `7` surfaces as
`ErrorWhileResolving(domain 7)` under the name "A". -/
theorem factory_error_wrapped_witness :
    lookupA (ServiceProvider.new [failingFactory]).instances 0 = none
    ∧ lookupA (ServiceProvider.new [failingFactory]).factories 0 = some failingFactory
    ∧ resolve 1 tyA (ServiceProvider.new [failingFactory])
      = (.err ⟨"A", .ErrorWhileResolving (.domain 7)⟩, ⟨[], [], 0⟩) :=
  ⟨rfl, rfl,
    factory_error_wrapped 0 tyA (ServiceProvider.new [failingFactory])
      ⟨[], [], 0⟩ failingFactory (.domain 7) rfl rfl rfl⟩

/-- C5: the nested-dependency scenario.  Resolving `Car` succeeds: the car
(allocation id 1) captures the engine handle with allocation id 0; that stored
engine instance is tagged "E1"; and a subsequent direct `resolve` of `Engine`
returns the very same handle (allocation id 0) without changing the state. -/
theorem car_engine_scenario :
    resolve 2 carTy demoProvider
      = (.ok ⟨1, 1, "Car", [0]⟩,
          ⟨[], [(1, ⟨1, 1, "Car", [0]⟩), (0, ⟨0, 0, "E1", []⟩)], 2⟩)
    ∧ lookupA (⟨[], [(1, ⟨1, 1, "Car", [0]⟩), (0, ⟨0, 0, "E1", []⟩)], 2⟩ :
        ServiceProvider).instances 0 = some ⟨0, 0, "E1", []⟩
    ∧ resolve 1 engineTy ⟨[], [(1, ⟨1, 1, "Car", [0]⟩), (0, ⟨0, 0, "E1", []⟩)], 2⟩
      = (.ok ⟨0, 0, "E1", []⟩,
          ⟨[], [(1, ⟨1, 1, "Car", [0]⟩), (0, ⟨0, 0, "E1", []⟩)], 2⟩) :=
  ⟨rfl, rfl, rfl⟩

/-- C6: failure framing — when `resolve` of `t` fails with any error, no
instance is stored for `t` by the failed call, and every instance that was
present before the call is still present, unchanged, afterwards. -/
theorem failed_resolve_frame (fuel : Nat) (t : Ty) (st st1 : ServiceProvider)
    (e : ResolveError) (h : resolve fuel t st = (.err e, st1)) :
    lookupA st1.instances t.id = none
    ∧ ∀ k v, lookupA st.instances k = some v → lookupA st1.instances k = some v := by
  have h2 := resolve_err_inv fuel t st e st1 h
  exact ⟨h2.1.1, h2.2⟩

/-- C6 witness: a provider holding a resolved instance under key 5 and a
failing factory for key 0: after the failed call there is still no instance
for 0 and the instance for 5 is untouched. -/
theorem failed_resolve_frame_witness :
    lookupA (⟨[], [(5, ⟨9, 5, "W", []⟩)], 3⟩ : ServiceProvider).instances 0 = none
    ∧ lookupA (⟨[], [(5, ⟨9, 5, "W", []⟩)], 3⟩ : ServiceProvider).instances 5
      = some ⟨9, 5, "W", []⟩ :=
  ⟨(failed_resolve_frame 1 tyA ⟨[(0, failingFactory)], [(5, ⟨9, 5, "W", []⟩)], 3⟩
      ⟨[], [(5, ⟨9, 5, "W", []⟩)], 3⟩ ⟨"A", .ErrorWhileResolving (.domain 7)⟩ rfl).1,
   (failed_resolve_frame 1 tyA ⟨[(0, failingFactory)], [(5, ⟨9, 5, "W", []⟩)], 3⟩
      ⟨[], [(5, ⟨9, 5, "W", []⟩)], 3⟩ ⟨"A", .ErrorWhileResolving (.domain 7)⟩ rfl).2
     5 ⟨9, 5, "W", []⟩ rfl⟩

/-- C7: poisoning — if a `resolve` of `t` that found a registered factory
fails, the factory was consumed and is never restored, so every subsequent
`resolve` of `t` (after any further sequence of resolutions) fails with
`NotFound` and leaves the state unchanged. -/
theorem factory_failure_poisons (fuel g : Nat) (t : Ty)
    (st st1 : ServiceProvider) (f : Factory) (e : ResolveError)
    (calls : List (Nat × Ty))
    (_hf : lookupA st.factories t.id = some f)
    (h : resolve fuel t st = (.err e, st1)) :
    resolve (g + 1) t (resolveSeq calls st1)
      = (.err { type_name := t.name, kind := .NotFound }, resolveSeq calls st1) := by
  have hd : DeadEntry t.id st1 := (resolve_err_inv fuel t st e st1 h).1
  exact resolve_notFound_of_dead g t (resolveSeq calls st1)
    (resolveSeq_dead t.id calls st1 hd)

/-- C7 witness: after the failing factory for `A` has run once, resolving `A`
again yields `NotFound`. -/
theorem factory_failure_poisons_witness :
    lookupA (ServiceProvider.new [failingFactory]).factories 0 = some failingFactory
    ∧ resolve 1 tyA (ServiceProvider.new [failingFactory])
      = (.err ⟨"A", .ErrorWhileResolving (.domain 7)⟩, ⟨[], [], 0⟩)
    ∧ resolve 1 tyA ⟨[], [], 0⟩ = (.err ⟨"A", .NotFound⟩, ⟨[], [], 0⟩) :=
  ⟨rfl, rfl,
    factory_failure_poisons 1 0 tyA (ServiceProvider.new [failingFactory])
      ⟨[], [], 0⟩ failingFactory ⟨"A", .ErrorWhileResolving (.domain 7)⟩ [] rfl rfl⟩

/-- C8 counterexample: on a provider whose erased storage holds, under key 0, a
value of dynamic type 1, `resolve` does not return any error value at all — it
panics through `downcast().expect(...)`; no `TypeMismatch` error kind exists in
`ResolveErrorKind`. -/
theorem mismatch_type_counterexample :
    (resolve 1 tyA mismatchProvider).1
      = .panicked "we resolved by TypeId so it should be a T"
    ∧ ¬ ∃ e, (resolve 1 tyA mismatchProvider).1 = .err e := by
  constructor
  · rfl
  · rintro ⟨e, he⟩
    rw [show (resolve 1 tyA mismatchProvider).1
      = .panicked "we resolved by TypeId so it should be a T" from rfl] at he
    cases he

/-- C8 (amended): if the erased storage under `t`'s identity holds a value
whose dynamic type is not `t`, `resolve` panics via the first
`downcast().expect(...)` (it does not return an error value; no `TypeMismatch`
kind exists), leaving the state unchanged. -/
theorem mismatch_panics (fuel : Nat) (t : Ty) (st : ServiceProvider) (v : RcAny)
    (h1 : lookupA st.instances t.id = some v) (h2 : v.tyId ≠ t.id) :
    resolve (fuel + 1) t st
      = (.panicked "we resolved by TypeId so it should be a T", st) := by
  simp only [resolve, resolveCore, h1, if_neg h2]

/-- C8 witness: the mismatch provider makes `resolve` panic. -/
theorem mismatch_panics_witness :
    lookupA mismatchProvider.instances 0 = some ⟨5, 1, "X", []⟩
    ∧ (⟨5, 1, "X", []⟩ : RcAny).tyId ≠ 0
    ∧ resolve 1 tyA mismatchProvider
      = (.panicked "we resolved by TypeId so it should be a T", mismatchProvider) :=
  ⟨rfl, by decide,
    mismatch_panics 0 tyA mismatchProvider ⟨5, 1, "X", []⟩ rfl (by decide)⟩

/-- C9 (spec-modelled registration API): a type registered through
`register_instance` resolves — now and after any further sequence of
resolutions — to exactly the registered instance, with the provider state
unchanged by the call, and the factory slot for that type is never consumed,
so a factory registered for it is never invoked. -/
theorem register_instance_resolves_exact (g : Nat) (t : Ty) (tag : String)
    (deps : List Nat) (st : ServiceProvider) (calls : List (Nat × Ty)) :
    resolve (g + 1) t (resolveSeq calls (register_instance t tag deps st))
      = (.ok ⟨st.nextRc, t.id, tag, deps⟩,
          resolveSeq calls (register_instance t tag deps st))
    ∧ lookupA (resolveSeq calls (register_instance t tag deps st)).factories t.id
      = lookupA st.factories t.id := by
  have h0 : PinnedAt t.id (lookupA st.factories t.id)
      ⟨st.nextRc, t.id, tag, deps⟩ (register_instance t tag deps st) :=
    ⟨rfl, lookupA_insertA_self st.instances t.id ⟨st.nextRc, t.id, tag, deps⟩⟩
  have h1 := resolveSeq_pinned t.id (lookupA st.factories t.id)
    ⟨st.nextRc, t.id, tag, deps⟩ calls (register_instance t tag deps st) h0
  refine ⟨?_, h1.1⟩
  simp only [resolve, resolveCore, h1.2, if_true]

/-- C10: downcast safety — on any provider built by `ServiceProvider::new`
(where every factory is keyed by its own `type_id`, as the blanket `Factory`
implementation guarantees), after any sequence of resolutions, `resolve` never
panics: both `downcast().expect(...)` branches are unreachable. -/
theorem resolve_never_panics (fs : List Factory) (calls : List (Nat × Ty))
    (fuel : Nat) (t : Ty) :
    NotPanic (resolve fuel t (resolveSeq calls (ServiceProvider.new fs))).1 := by
  have h := (resolve_wf fuel t (resolveSeq calls (ServiceProvider.new fs))
    (resolveSeq_wf calls (ServiceProvider.new fs) (new_wf fs))).2
  cases ho : (resolve fuel t (resolveSeq calls (ServiceProvider.new fs))).1 with
  | ok v => trivial
  | err e => trivial
  | panicked m => exact absurd ho (h m)
  | outOfFuel => trivial
